import Mathlib

set_option autoImplicit false

/-
Shallow embedding of the property/polling protocol layer of the
homebridge-miot adapter (src/lib/protocol/MiotDevice.js), together with a
minimal model of the MiotProperty value holder it manipulates.

Conventions of the embedding:
* JavaScript runtime values flowing through property caches are modelled by
  the inductive type JSVal; the JavaScript value `undefined` is the
  constructor JSVal.undefined.  Strict equality (===/!==) is DecidableEq on
  JSVal.  Numbers are modelled as integers (the properties handled by the
  adapter carry booleans and integral numbers).
* The asynchronous transport (the miio library) is modelled as an oracle
  parameter: a batched get call receives an `Except String (List SlotResp)`
  (error = the transport promise rejected), a set call receives a Bool
  (whether the transport call succeeded).  Each device operation returns an
  OpResult recording the post state, the transport calls issued, the
  events emitted, and the settled promise outcome.
* The registry `this.properties` (a JavaScript object keyed by property
  name, iterated in insertion order) is modelled as a `List MiotProperty`;
  JavaScript guarantees key uniqueness, which theorems take as the
  hypothesis that the names in the list are pairwise distinct where needed.
  In-place mutation of a property object found in the registry is modelled
  by rewriting every registry entry of that name.
-/

namespace HomebridgeMiot

/-- JavaScript values as they occur in property caches and protocol slots. -/
inductive JSVal where
  | undefined : JSVal
  | vBool : Bool → JSVal
  | vNum : Int → JSVal
  | vStr : String → JSVal
deriving DecidableEq

/-- Partial JavaScript ToNumber coercion used by the relational operators in
the range clamp: numbers are themselves, booleans coerce to 0/1, `undefined`
coerces to NaN (every comparison false), string coercion is not modelled
(no claim exercises it) and is treated like NaN. -/
def JSVal.toNum : JSVal → Option Int
  | .vNum n => some n
  | .vBool b => some (cond b 1 0)
  | .undefined => none
  | .vStr _ => none

/-- JavaScript `v > bound` for an integer bound (false when v coerces to NaN). -/
def jsGtInt (v : JSVal) (bound : Int) : Bool :=
  match v.toNum with
  | some n => decide (bound < n)
  | none => false

/-- JavaScript `v < bound` for an integer bound (false when v coerces to NaN). -/
def jsLtInt (v : JSVal) (bound : Int) : Bool :=
  match v.toNum with
  | some n => decide (n < bound)
  | none => false

/-- Modelled from the spec: an entry of a property's enumerated value list
(an allowed value together with its description); MiotProperty.js is not
part of the sources, §3 "valueList (enumerated allowed values with
descriptions)". -/
structure ValueListEntry where
  value : JSVal
  description : String
deriving DecidableEq

/-- Modelled from the spec: the MiotProperty value holder (MiotProperty.js is
not part of the sources).  §3: identity name/siid/piid, shape
format/access/unit/valueRange/valueList, state currentValue. -/
structure MiotProperty where
  name : String
  siid : Nat
  piid : Nat
  format : String
  access : List String
  unit : Option String
  valueRange : Option (List Int)
  valueList : Option (List ValueListEntry)
  currentValue : JSVal
deriving DecidableEq

namespace MiotProperty

/-- Modelled from the spec: `isReadable()` is derived from `access`. -/
def isReadable (p : MiotProperty) : Bool :=
  p.access.contains "read"

/-- Modelled from the spec: `isWritable()` is derived from `access`. -/
def isWritable (p : MiotProperty) : Bool :=
  p.access.contains "write"

/-- Modelled from the spec: `getName()` accessor. -/
def getName (p : MiotProperty) : String :=
  p.name

/-- Modelled from the spec: `getValue()` returns the cached value. -/
def getValue (p : MiotProperty) : JSVal :=
  p.currentValue

/-- Modelled from the spec: `getSafeValue()` returns the cached value or the
numeric-safe fallback 0 when it is undefined. -/
def getSafeValue (p : MiotProperty) : JSVal :=
  match p.currentValue with
  | .undefined => .vNum 0
  | v => v

/-- Modelled from the spec: `setValue(v)` overwrites the cache
unconditionally and does not contact the device. -/
def setValue (p : MiotProperty) (v : JSVal) : MiotProperty :=
  { p with currentValue := v }

/-- Modelled from the spec: `hasValueRange()`. -/
def hasValueRange (p : MiotProperty) : Bool :=
  p.valueRange.isSome

/-- Modelled from the spec: `getValueRange()`; none models the JavaScript
null/undefined that the caller tests with `propRange != null`. -/
def getValueRange (p : MiotProperty) : Option (List Int) :=
  p.valueRange

/-- Modelled from the spec: `hasValueList()`. -/
def hasValueList (p : MiotProperty) : Bool :=
  p.valueList.isSome

/-- Modelled from the spec: `getValueList()`. -/
def getValueList (p : MiotProperty) : Option (List ValueListEntry) :=
  p.valueList

end MiotProperty

/-- Wire item of the miot protocol, per spec §6: each request item is of the
shape did/siid/piid with an optional value (present for writes). -/
structure ProtocolObj where
  did : Option String
  siid : Nat
  piid : Nat
  value : Option JSVal
deriving DecidableEq

namespace MiotProperty

/-- Modelled from the spec: `getReadProtocolObjForDid(did)` builds a read
request addressed by device id + serviceId + propertyId. -/
def getReadProtocolObjForDid (p : MiotProperty) (did : Option String) : ProtocolObj :=
  ⟨did, p.siid, p.piid, none⟩

/-- Modelled from the spec: `getWriteProtocolObjForDid(did, value)` builds a
write request addressed the same way, carrying the value. -/
def getWriteProtocolObjForDid (p : MiotProperty) (did : Option String) (v : JSVal) : ProtocolObj :=
  ⟨did, p.siid, p.piid, some v⟩

end MiotProperty

/-- One transport call issued through `this.miioDevice.call(command, params)`. -/
structure ProtocolCall where
  command : String
  params : List ProtocolObj
deriving DecidableEq

def COMMAND_GET : String := "get_properties"

def COMMAND_SET : String := "set_properties"

/-- One slot of a batched get response: a status code and a value (the
JavaScript `undefined` value is JSVal.undefined). -/
structure SlotResp where
  code : Int
  value : JSVal
deriving DecidableEq

/-- Value with which a device-operation promise settles when it resolves:
either the JavaScript `undefined` or a result object mapping property names
to values. -/
inductive PromiseValue where
  | undefined : PromiseValue
  | obj : List (String × JSVal) → PromiseValue
deriving DecidableEq

/-- Settled outcome of the promise a device operation returns. -/
inductive Outcome where
  | resolved : PromiseValue → Outcome
  | rejected : String → Outcome
deriving DecidableEq

/-- Device state: configured identity, the optional transport handle
(`this.miioDevice`, undefined iff disconnected, modelled as an opaque
numeric handle), and the property/capability registries. -/
structure MiotDevice where
  deviceId : Option String
  model : Option String
  devName : String
  miioDevice : Option Nat
  properties : List MiotProperty
  capabilities : List (String × JSVal)
deriving DecidableEq

/-- Result of one device operation: post device state, transport calls
issued (in order), DEVICE_PROPERTY_UPDATED events emitted (payload = the
property object), and the settled promise outcome. -/
structure OpResult where
  dev : MiotDevice
  calls : List ProtocolCall
  events : List MiotProperty
  outcome : Outcome
deriving DecidableEq

namespace MiotDevice

/-- `isConnected()`: the transport handle's presence is the single source of
truth. -/
def isConnected (dev : MiotDevice) : Bool :=
  dev.miioDevice.isSome

/-- `createErrorPromise(msg)` builds a rejected promise and immediately
attaches a catch handler that only logs, so every caller observes a promise
that RESOLVES with `undefined` (the catch handler's return value). -/
def createErrorPromise (_msg : String) : Outcome :=
  Outcome.resolved PromiseValue.undefined

/-- `this.properties[propName]` lookup (first — in JavaScript: unique —
entry of that name). -/
def getProperty (dev : MiotDevice) (propName : String) : Option MiotProperty :=
  dev.properties.find? (fun p => p.name == propName)

/-- `hasProperty(propName)`: `this.properties[propName] !== undefined`. -/
def hasProperty (dev : MiotDevice) (propName : String) : Bool :=
  (dev.getProperty propName).isSome

/-- `getPropertyValue(propName)`: cached value, or `undefined` when the
property is missing (getProperty logged a warning and returned null). -/
def getPropertyValue (dev : MiotDevice) (propName : String) : JSVal :=
  match dev.getProperty propName with
  | some prop => prop.getValue
  | none => .undefined

/-- `getSafePropertyValue(propName)`: safe cached value, or 0 when the
property is missing. -/
def getSafePropertyValue (dev : MiotDevice) (propName : String) : JSVal :=
  match dev.getProperty propName with
  | some prop => prop.getSafeValue
  | none => .vNum 0

/-- `getPropertyValueRange(propName)`: the declared range when the property
exists and has one, else the empty array. -/
def getPropertyValueRange (dev : MiotDevice) (propName : String) : List Int :=
  if dev.hasProperty propName then
    match dev.getProperty propName with
    | some prop => if prop.hasValueRange then prop.getValueRange.getD [] else []
    | none => []
  else []

/-- `getPropertyValueList(propName)`: the declared value list when the
property exists and has one, else the empty array. -/
def getPropertyValueList (dev : MiotDevice) (propName : String) : List ValueListEntry :=
  if dev.hasProperty propName then
    match dev.getProperty propName with
    | some prop => if prop.hasValueList then (prop.getValueList).getD [] else []
    | none => []
  else []

/-- Modelled from the spec: the initial cached value a freshly constructed
MiotProperty holds (MiotProperty.js is not part of the sources); §3
"currentValue … defaults to a type-appropriate zero value". -/
def initialValueForFormat (format : String) : JSVal :=
  if format = "bool" then .vBool false
  else if format = "string" then .vStr ""
  else .vNum 0

/-- Registry write `this.properties[name] = newProp`: a JavaScript object
assignment replaces an existing key in place and appends a new key at the
end of the iteration order. -/
def registrySet (ps : List MiotProperty) (p : MiotProperty) : List MiotProperty :=
  if ps.any (fun q => q.name == p.name) then
    ps.map (fun q => if q.name == p.name then p else q)
  else
    ps ++ [p]

/-- `addProperty(name, siid, piid, …)`: missing name, or missing siid/piid,
is a logged warning and a silent skip; otherwise a new MiotProperty is built
and stored under its name.  JavaScript falsiness of the guards: a missing
name is the empty string (or undefined), a missing id is 0 (or undefined). -/
def addProperty (dev : MiotDevice) (propName : String) (siid piid : Nat)
    (format : String) (access : List String) ( unit : Option String)
    (valueRange : Option (List Int)) (valueList : Option (List ValueListEntry)) :
    MiotDevice :=
  if propName = "" then dev
  else if siid = 0 ∨ piid = 0 then dev
  else
    let newProp : MiotProperty :=
      ⟨propName, siid, piid, format, access, unit, valueRange, valueList,
        initialValueForFormat format⟩
    { dev with properties := registrySet dev.properties newProp }

/-- In-place mutation of the registry entry of the given name (JavaScript
mutates the found property object; names are unique keys there). -/
def registrySetValue (ps : List MiotProperty) (propName : String) (v : JSVal) :
    List MiotProperty :=
  ps.map (fun p => if p.name == propName then p.setValue v else p)

/-- `updatePropertyValueFromDevice(result, propName, returnObj)`: on code 0
the slot's value — defined or not — is written into the property's cache and
recorded under the property's name in the result object; any other code is
only logged (the `value === undefined` disjunct of the else-if is
unreachable there).  A propName missing from the registry is outside the
modelled domain (JavaScript would throw on `null.setValue`); the model
leaves the registry unchanged in that case. -/
def updatePropertyValueFromDevice (dev : MiotDevice) (result : List (String × JSVal))
    (propName : String) (returnObj : SlotResp) : MiotDevice × List (String × JSVal) :=
  if returnObj.code = 0 then
    ({ dev with properties := registrySetValue dev.properties propName returnObj.value },
      result ++ [(propName, returnObj.value)])
  else
    (dev, result)

/-- The loop `for (let i = 0; i < result.length; i++)
updatePropertyValueFromDevice(obj, readablePropKeys[i], result[i])` of
requestAllProperties, rendered as lockstep recursion on the response list
(keys.headD mirrors the out-of-range indexing that cannot occur when the
response has the request's length). -/
def runUpdates (dev : MiotDevice) (obj : List (String × JSVal)) :
    List String → List SlotResp → MiotDevice × List (String × JSVal)
  | _, [] => (dev, obj)
  | keys, r :: rs =>
    let st := dev.updatePropertyValueFromDevice obj (keys.headD "") r
    runUpdates st.1 st.2 keys.tail rs

/-- The readable sub-registry `getAllReadableProps()` in registry iteration
order. -/
def readableProps (dev : MiotDevice) : List MiotProperty :=
  dev.properties.filter (fun p => p.isReadable)

/-- `Object.keys` of the readable sub-registry. -/
def readablePropKeys (dev : MiotDevice) : List String :=
  dev.readableProps.map (fun p => p.name)

/-- `requestAllProperties()`: when connected, build one batched get request
over every readable property in registry order, send it, and map each
response slot back to its property by position; the returned promise carries
the accumulated result object.  A transport rejection is NOT caught here
(the caller handles it).  When disconnected, return
createErrorPromise (which resolves). -/
def requestAllProperties (dev : MiotDevice) (resp : Except String (List SlotResp)) :
    OpResult :=
  if dev.isConnected then
    let keys := dev.readablePropKeys
    let allReadableProtcolProps :=
      dev.readableProps.map (fun p => p.getReadProtocolObjForDid dev.deviceId)
    match resp with
    | .ok result =>
        let st := runUpdates dev [] keys result
        ⟨st.1, [⟨COMMAND_GET, allReadableProtcolProps⟩], [],
          Outcome.resolved (PromiseValue.obj st.2)⟩
    | .error err =>
        ⟨dev, [⟨COMMAND_GET, allReadableProtcolProps⟩], [], Outcome.rejected err⟩
  else
    ⟨dev, [], [], createErrorPromise "Cannot poll all properties! Device not connected!"⟩

/-- `pollProperties()`: delegate to requestAllProperties when connected,
else return a genuinely rejected promise (no catch is attached here). -/
def pollProperties (dev : MiotDevice) (resp : Except String (List SlotResp)) :
    OpResult :=
  if dev.isConnected then
    dev.requestAllProperties resp
  else
    ⟨dev, [], [], Outcome.rejected "Device not connected"⟩

/-- `setProperty(prop, value)`: guards on prop presence and connectivity
(createErrorPromise on either — a resolved outcome); otherwise issues one
single-item set call.  On transport success the property's cache is updated
optimistically and one DEVICE_PROPERTY_UPDATED event carrying the (updated)
property object is emitted; a transport failure is caught and only logged,
so the promise resolves in every path. -/
def setProperty (dev : MiotDevice) (propOpt : Option MiotProperty) (value : JSVal)
    (transportOk : Bool) : OpResult :=
  match propOpt with
  | some prop =>
    if dev.isConnected then
      let propDef := prop.getWriteProtocolObjForDid dev.deviceId value
      if transportOk then
        ⟨{ dev with properties := registrySetValue dev.properties prop.name value },
          [⟨COMMAND_SET, [propDef]⟩], [prop.setValue value],
          Outcome.resolved PromiseValue.undefined⟩
      else
        ⟨dev, [⟨COMMAND_SET, [propDef]⟩], [], Outcome.resolved PromiseValue.undefined⟩
    else
      createErrorPromiseResult dev
  | none => createErrorPromiseResult dev
where
  /-- Shared shape of the guard failures: no call, no event, an absorbed
  (resolved-with-undefined) promise. -/
  createErrorPromiseResult (dev : MiotDevice) : OpResult :=
    ⟨dev, [], [], createErrorPromise "Cannot set property! "⟩

/-- The range clamp block at the head of setPropertyValue: when the property
declares a range array of more than one entry, a value above
index 1 is replaced by that bound, else a value below index 0 is replaced by
that bound. -/
def clampToRange (propRangeOpt : Option (List Int)) (value : JSVal) : JSVal :=
  match propRangeOpt with
  | some propRange =>
    if propRange.length > 1 then
      let low := propRange.getD 0 0
      let high := propRange.getD 1 0
      if jsGtInt value high then .vNum high
      else if jsLtInt value low then .vNum low
      else value
    else value
  | none => value

/-- `setPropertyValue(propName, value)`: look the property up (silent no-op
when missing), clamp the value into the declared range, and only when the
clamped value differs (strictly) from the cached value delegate to
setProperty; otherwise skip entirely. -/
def setPropertyValue (dev : MiotDevice) (propName : String) (value : JSVal)
    (transportOk : Bool) : OpResult :=
  match dev.getProperty propName with
  | some prop =>
    let clamped := clampToRange prop.getValueRange value
    if prop.getValue ≠ clamped then
      dev.setProperty (some prop) clamped transportOk
    else
      ⟨dev, [], [], Outcome.resolved PromiseValue.undefined⟩
  | none => ⟨dev, [], [], Outcome.resolved PromiseValue.undefined⟩

/-- `disconnectAndDestroyMiioDevice()`: destroy the transport handle and
null it out. -/
def disconnectAndDestroyMiioDevice (dev : MiotDevice) : MiotDevice :=
  { dev with miioDevice := none }

/-- `updateMiioDevice(newMiioDevice)`: when no transport handle is bound,
bind it and run setupDevice (the returned Bool instruments whether
setupDevice ran: device-id resolution, the device-specific setup hook and
the initial full property fetch, none of which the lifecycle claims inspect
beyond their occurrence); when a handle is already bound, only replace it. -/
def updateMiioDevice (dev : MiotDevice) (newMiioDevice : Nat) : MiotDevice × Bool :=
  if dev.miioDevice.isNone then
    ({ dev with miioDevice := some newMiioDevice }, true)
  else
    ({ dev with miioDevice := some newMiioDevice }, false)

/-! Registry lemmas: how lookups interact with the in-place value update. -/

theorem setValue_name (p : MiotProperty) (v : JSVal) : (p.setValue v).name = p.name := rfl

theorem setValue_getValue (p : MiotProperty) (v : JSVal) : (p.setValue v).getValue = v := rfl

theorem setValue_getValueRange (p : MiotProperty) (v : JSVal) :
    (p.setValue v).getValueRange = p.getValueRange := rfl

theorem registrySetValue_map_name (ps : List MiotProperty) (k : String) (v : JSVal) :
    (registrySetValue ps k v).map (fun p => p.name) = ps.map (fun p => p.name) := by
  induction ps with
  | nil => rfl
  | cons p ps ih =>
      simp only [registrySetValue, List.map] at ih ⊢
      refine congrArg₂ (fun a b => List.cons a b) ?_ ih
      split <;> rfl

theorem find?_registrySetValue_ne (ps : List MiotProperty) (k n : String) (v : JSVal)
    (h : n ≠ k) :
    (registrySetValue ps k v).find? (fun p => p.name == n) =
      ps.find? (fun p => p.name == n) := by
  induction ps with
  | nil => rfl
  | cons p ps ih =>
      rw [registrySetValue, List.map_cons]
      rcases hpk : (p.name == k) with _ | _
      · rw [if_neg (by simp [hpk])]
        rcases hpn : (p.name == n) with _ | _
        · rw [List.find?_cons_of_neg _ (by simp [hpn]),
            List.find?_cons_of_neg _ (by simp [hpn])]
          exact ih
        · rw [List.find?_cons_of_pos _ (by simp [hpn]),
            List.find?_cons_of_pos _ (by simp [hpn])]
      · have hpkeq : p.name = k := by simpa using hpk
        have hpn : (p.name == n) = false := by
          simp only [beq_eq_false_iff_ne, ne_eq, hpkeq]
          exact fun hkn => h hkn.symm
        rw [if_pos (by simp [hpk])]
        rw [List.find?_cons_of_neg _ (by simp [setValue_name, hpn, hpkeq]; exact fun hkn => h hkn.symm),
          List.find?_cons_of_neg _ (by simp [hpkeq]; exact fun hkn => h hkn.symm)]
        exact ih

theorem find?_registrySetValue_eq (ps : List MiotProperty) (k : String) (v : JSVal) :
    (registrySetValue ps k v).find? (fun p => p.name == k) =
      (ps.find? (fun p => p.name == k)).map (fun p => p.setValue v) := by
  induction ps with
  | nil => rfl
  | cons p ps ih =>
      rw [registrySetValue, List.map_cons]
      rcases hpk : (p.name == k) with _ | _
      · rw [if_neg (by simp [hpk])]
        rw [List.find?_cons_of_neg _ (by simp [hpk]),
          List.find?_cons_of_neg _ (by simp [hpk])]
        exact ih
      · rw [if_pos (by simp [hpk])]
        rw [List.find?_cons_of_pos _ (by simp [setValue_name]; simpa using hpk),
          List.find?_cons_of_pos _ (by simp [hpk])]
        rfl

theorem getProperty_mem_name (dev : MiotDevice) (k : String)
    (h : k ∈ dev.properties.map (fun p => p.name)) :
    (dev.getProperty k).isSome = true := by
  rcases List.mem_map.mp h with ⟨p, hp, hname⟩
  rw [getProperty, List.find?_isSome]
  exact ⟨p, hp, by simp [hname]⟩

theorem getPropertyValue_update_ne (dev : MiotDevice) (k n : String) (v : JSVal)
    (h : n ≠ k) :
    getPropertyValue { dev with properties := registrySetValue dev.properties k v } n
      = getPropertyValue dev n := by
  simp only [getPropertyValue, getProperty]
  rw [find?_registrySetValue_ne dev.properties k n v h]

theorem getPropertyValue_update_eq (dev : MiotDevice) (k : String) (v : JSVal)
    (h : (dev.getProperty k).isSome = true) :
    getPropertyValue { dev with properties := registrySetValue dev.properties k v } k = v := by
  rcases Option.isSome_iff_exists.mp h with ⟨p, hp⟩
  simp only [getPropertyValue, getProperty] at hp ⊢
  rw [find?_registrySetValue_eq dev.properties k v, hp]
  rfl

/-! Lemmas about the batched-response update loop. -/

theorem updatePropertyValueFromDevice_fst (dev : MiotDevice) (obj : List (String × JSVal))
    (k : String) (r : SlotResp) :
    (dev.updatePropertyValueFromDevice obj k r).1
      = (dev.updatePropertyValueFromDevice [] k r).1 := by
  unfold updatePropertyValueFromDevice
  split <;> rfl

theorem updatePropertyValueFromDevice_snd (dev : MiotDevice) (obj : List (String × JSVal))
    (k : String) (r : SlotResp) :
    (dev.updatePropertyValueFromDevice obj k r).2
      = obj ++ (dev.updatePropertyValueFromDevice [] k r).2 := by
  unfold updatePropertyValueFromDevice
  split <;> simp

theorem runUpdates_fst_obj_irrel (result : List SlotResp) :
    ∀ (keys : List String) (dev : MiotDevice) (obj : List (String × JSVal)),
    (runUpdates dev obj keys result).1 = (runUpdates dev [] keys result).1 := by
  induction result with
  | nil => intro keys dev obj; rfl
  | cons r rs ih =>
      intro keys dev obj
      show (runUpdates (dev.updatePropertyValueFromDevice obj (keys.headD "") r).1
        (dev.updatePropertyValueFromDevice obj (keys.headD "") r).2 keys.tail rs).1 = _
      rw [ih, updatePropertyValueFromDevice_fst]
      exact (ih keys.tail (dev.updatePropertyValueFromDevice [] (keys.headD "") r).1
        (dev.updatePropertyValueFromDevice [] (keys.headD "") r).2).symm

theorem runUpdates_snd_append (result : List SlotResp) :
    ∀ (keys : List String) (dev : MiotDevice) (obj : List (String × JSVal)),
    (runUpdates dev obj keys result).2 = obj ++ (runUpdates dev [] keys result).2 := by
  induction result with
  | nil => intro keys dev obj; simp [runUpdates]
  | cons r rs ih =>
      intro keys dev obj
      calc (runUpdates dev obj keys (r :: rs)).2
          = (dev.updatePropertyValueFromDevice obj (keys.headD "") r).2
              ++ (runUpdates (dev.updatePropertyValueFromDevice obj (keys.headD "") r).1
                    [] keys.tail rs).2 :=
            ih keys.tail (dev.updatePropertyValueFromDevice obj (keys.headD "") r).1
              (dev.updatePropertyValueFromDevice obj (keys.headD "") r).2
        _ = obj ++ ((dev.updatePropertyValueFromDevice [] (keys.headD "") r).2
              ++ (runUpdates (dev.updatePropertyValueFromDevice [] (keys.headD "") r).1
                    [] keys.tail rs).2) := by
            rw [updatePropertyValueFromDevice_snd, updatePropertyValueFromDevice_fst,
              List.append_assoc]
        _ = obj ++ (runUpdates dev [] keys (r :: rs)).2 := by
            rw [← ih keys.tail (dev.updatePropertyValueFromDevice [] (keys.headD "") r).1
              (dev.updatePropertyValueFromDevice [] (keys.headD "") r).2]
            rfl

theorem runUpdates_frame (result : List SlotResp) :
    ∀ (keys : List String) (dev : MiotDevice) (obj : List (String × JSVal)) (n : String),
    n ∉ keys → keys.length = result.length →
    getPropertyValue (runUpdates dev obj keys result).1 n = getPropertyValue dev n := by
  induction result with
  | nil => intro keys dev obj n _ _; rfl
  | cons r rs ih =>
      intro keys dev obj n hn hlen
      cases keys with
      | nil => simp at hlen
      | cons k ks =>
          have hnk : n ≠ k := fun h => hn (h ▸ List.mem_cons_self k ks)
          have hnks : n ∉ ks := fun h => hn (List.mem_cons_of_mem k h)
          have hlen2 : ks.length = rs.length := by simpa using hlen
          have hstep : getPropertyValue (dev.updatePropertyValueFromDevice obj k r).1 n
              = getPropertyValue dev n := by
            unfold updatePropertyValueFromDevice
            split
            · exact getPropertyValue_update_ne dev k n r.value hnk
            · rfl
          calc getPropertyValue (runUpdates dev obj (k :: ks) (r :: rs)).1 n
              = getPropertyValue (runUpdates (dev.updatePropertyValueFromDevice obj k r).1
                  (dev.updatePropertyValueFromDevice obj k r).2 ks rs).1 n := by
                simp [runUpdates]
            _ = getPropertyValue (dev.updatePropertyValueFromDevice obj k r).1 n :=
                ih ks _ _ n hnks hlen2
            _ = getPropertyValue dev n := hstep

theorem update_fst_getPV_ne (dev : MiotDevice) (obj : List (String × JSVal)) (k n : String)
    (r : SlotResp) (h : n ≠ k) :
    getPropertyValue (dev.updatePropertyValueFromDevice obj k r).1 n
      = getPropertyValue dev n := by
  unfold updatePropertyValueFromDevice
  split
  · exact getPropertyValue_update_ne dev k n r.value h
  · rfl

theorem update_fst_map_name (dev : MiotDevice) (obj : List (String × JSVal)) (k : String)
    (r : SlotResp) :
    ((dev.updatePropertyValueFromDevice obj k r).1).properties.map (fun p => p.name)
      = dev.properties.map (fun p => p.name) := by
  unfold updatePropertyValueFromDevice
  split
  · exact registrySetValue_map_name dev.properties k r.value
  · rfl

theorem runUpdates_get_spec (result : List SlotResp) :
    ∀ (keys : List String) (dev : MiotDevice),
    keys.length = result.length → keys.Nodup →
    (∀ k, k ∈ keys → k ∈ dev.properties.map (fun p => p.name)) →
    ∀ i (hik : i < keys.length) (hir : i < result.length),
      ((result.get ⟨i, hir⟩).code = 0 →
          getPropertyValue (runUpdates dev [] keys result).1 (keys.get ⟨i, hik⟩)
            = (result.get ⟨i, hir⟩).value)
      ∧ ((result.get ⟨i, hir⟩).code ≠ 0 →
          getPropertyValue (runUpdates dev [] keys result).1 (keys.get ⟨i, hik⟩)
            = getPropertyValue dev (keys.get ⟨i, hik⟩)) := by
  induction result with
  | nil =>
      intro keys dev _ _ _ i hik hir
      exact absurd hir (by simp)
  | cons r rs ih =>
      intro keys dev hlen hnod hmem i hik hir
      cases keys with
      | nil => simp at hlen
      | cons k ks =>
          have hlen2 : ks.length = rs.length := by simpa using hlen
          have hknotks : k ∉ ks := (List.nodup_cons.mp hnod).1
          have hnodks : ks.Nodup := (List.nodup_cons.mp hnod).2
          have hrun : (runUpdates dev [] (k :: ks) (r :: rs)).1
              = (runUpdates (dev.updatePropertyValueFromDevice [] k r).1 [] ks rs).1 :=
            runUpdates_fst_obj_irrel rs ks (dev.updatePropertyValueFromDevice [] k r).1
              (dev.updatePropertyValueFromDevice [] k r).2
          cases i with
          | zero =>
              refine ⟨fun hcode => ?_, fun hcode => ?_⟩
              · show getPropertyValue (runUpdates dev [] (k :: ks) (r :: rs)).1 k = r.value
                rw [hrun, runUpdates_frame rs ks _ [] k hknotks hlen2]
                have hpres : (dev.getProperty k).isSome = true :=
                  getProperty_mem_name dev k (hmem k (List.mem_cons_self k ks))
                have hcode0 : r.code = 0 := hcode
                have hupd : (dev.updatePropertyValueFromDevice [] k r).1
                    = { dev with properties := registrySetValue dev.properties k r.value } := by
                  unfold updatePropertyValueFromDevice
                  rw [if_pos hcode0]
                rw [hupd]
                exact getPropertyValue_update_eq dev k r.value hpres
              · show getPropertyValue (runUpdates dev [] (k :: ks) (r :: rs)).1 k
                  = getPropertyValue dev k
                rw [hrun, runUpdates_frame rs ks _ [] k hknotks hlen2]
                have hcode0 : r.code ≠ 0 := hcode
                have hupd : (dev.updatePropertyValueFromDevice [] k r).1 = dev := by
                  unfold updatePropertyValueFromDevice
                  rw [if_neg hcode0]
                rw [hupd]
          | succ j =>
              have hj1 : j < ks.length := by
                simp only [List.length_cons] at hik; omega
              have hj2 : j < rs.length := by
                simp only [List.length_cons] at hir; omega
              have hmem2 : ∀ k2, k2 ∈ ks →
                  k2 ∈ ((dev.updatePropertyValueFromDevice [] k r).1).properties.map
                    (fun p => p.name) := by
                intro k2 hk2
                rw [update_fst_map_name]
                exact hmem k2 (List.mem_cons_of_mem k hk2)
              have ihj := ih ks (dev.updatePropertyValueFromDevice [] k r).1 hlen2 hnodks
                hmem2 j hj1 hj2
              refine ⟨fun hcode => ?_, fun hcode => ?_⟩
              · show getPropertyValue (runUpdates dev [] (k :: ks) (r :: rs)).1
                  (ks.get ⟨j, hj1⟩) = (rs.get ⟨j, hj2⟩).value
                rw [hrun]
                exact ihj.1 hcode
              · show getPropertyValue (runUpdates dev [] (k :: ks) (r :: rs)).1
                  (ks.get ⟨j, hj1⟩) = getPropertyValue dev (ks.get ⟨j, hj1⟩)
                rw [hrun]
                have hgetmem : ks.get ⟨j, hj1⟩ ∈ ks := List.get_mem ks j hj1
                have hne : ks.get ⟨j, hj1⟩ ≠ k := fun h => hknotks (h ▸ hgetmem)
                calc getPropertyValue (runUpdates (dev.updatePropertyValueFromDevice [] k r).1
                      [] ks rs).1 (ks.get ⟨j, hj1⟩)
                    = getPropertyValue (dev.updatePropertyValueFromDevice [] k r).1
                        (ks.get ⟨j, hj1⟩) := ihj.2 hcode
                  _ = getPropertyValue dev (ks.get ⟨j, hj1⟩) :=
                      update_fst_getPV_ne dev [] k _ r hne

theorem runUpdates_obj_fst_mem (result : List SlotResp) :
    ∀ (keys : List String) (dev : MiotDevice) (x : String),
    keys.length = result.length →
    x ∈ ((runUpdates dev [] keys result).2).map Prod.fst → x ∈ keys := by
  induction result with
  | nil =>
      intro keys dev x _ hx
      simp [runUpdates] at hx
  | cons r rs ih =>
      intro keys dev x hlen hx
      cases keys with
      | nil => simp at hlen
      | cons k ks =>
          have hlen2 : ks.length = rs.length := by simpa using hlen
          have hsplit : (runUpdates dev [] (k :: ks) (r :: rs)).2
              = (dev.updatePropertyValueFromDevice [] k r).2
                ++ (runUpdates (dev.updatePropertyValueFromDevice [] k r).1 [] ks rs).2 :=
            runUpdates_snd_append rs ks (dev.updatePropertyValueFromDevice [] k r).1
              (dev.updatePropertyValueFromDevice [] k r).2
          rw [hsplit, List.map_append, List.mem_append] at hx
          rcases hx with hx | hx
          · have hxk : x = k := by
              unfold updatePropertyValueFromDevice at hx
              split at hx
              · simpa using hx
              · simp at hx
            exact hxk ▸ List.mem_cons_self k ks
          · exact List.mem_cons_of_mem k (ih ks _ x hlen2 hx)

theorem runUpdates_obj_spec (result : List SlotResp) :
    ∀ (keys : List String) (dev : MiotDevice),
    keys.length = result.length → keys.Nodup →
    ∀ i (hik : i < keys.length) (hir : i < result.length),
      ((result.get ⟨i, hir⟩).code = 0 →
          (keys.get ⟨i, hik⟩, (result.get ⟨i, hir⟩).value)
            ∈ (runUpdates dev [] keys result).2)
      ∧ ((result.get ⟨i, hir⟩).code ≠ 0 →
          keys.get ⟨i, hik⟩ ∉ ((runUpdates dev [] keys result).2).map Prod.fst) := by
  induction result with
  | nil =>
      intro keys dev _ _ i hik hir
      exact absurd hir (by simp)
  | cons r rs ih =>
      intro keys dev hlen hnod i hik hir
      cases keys with
      | nil => simp at hlen
      | cons k ks =>
          have hlen2 : ks.length = rs.length := by simpa using hlen
          have hknotks : k ∉ ks := (List.nodup_cons.mp hnod).1
          have hnodks : ks.Nodup := (List.nodup_cons.mp hnod).2
          have hsplit : (runUpdates dev [] (k :: ks) (r :: rs)).2
              = (dev.updatePropertyValueFromDevice [] k r).2
                ++ (runUpdates (dev.updatePropertyValueFromDevice [] k r).1 [] ks rs).2 :=
            runUpdates_snd_append rs ks (dev.updatePropertyValueFromDevice [] k r).1
              (dev.updatePropertyValueFromDevice [] k r).2
          cases i with
          | zero =>
              refine ⟨fun hcode => ?_, fun hcode => ?_⟩
              · show (k, r.value) ∈ (runUpdates dev [] (k :: ks) (r :: rs)).2
                rw [hsplit]
                apply List.mem_append_left
                have hcode0 : r.code = 0 := hcode
                have hupd : (dev.updatePropertyValueFromDevice [] k r).2
                    = [] ++ [(k, r.value)] := by
                  unfold updatePropertyValueFromDevice
                  rw [if_pos hcode0]
                rw [hupd]
                simp
              · show k ∉ ((runUpdates dev [] (k :: ks) (r :: rs)).2).map Prod.fst
                rw [hsplit, List.map_append]
                intro hx
                rcases List.mem_append.mp hx with hx | hx
                · have hcode0 : r.code ≠ 0 := hcode
                  have hupd : (dev.updatePropertyValueFromDevice [] k r).2 = [] := by
                    unfold updatePropertyValueFromDevice
                    rw [if_neg hcode0]
                  rw [hupd] at hx
                  simp at hx
                · exact hknotks (runUpdates_obj_fst_mem rs ks _ k hlen2 hx)
          | succ j =>
              have hj1 : j < ks.length := by
                simp only [List.length_cons] at hik; omega
              have hj2 : j < rs.length := by
                simp only [List.length_cons] at hir; omega
              have ihj := ih ks (dev.updatePropertyValueFromDevice [] k r).1 hlen2 hnodks
                j hj1 hj2
              refine ⟨fun hcode => ?_, fun hcode => ?_⟩
              · show (ks.get ⟨j, hj1⟩, (rs.get ⟨j, hj2⟩).value)
                  ∈ (runUpdates dev [] (k :: ks) (r :: rs)).2
                rw [hsplit]
                exact List.mem_append_right _ (ihj.1 hcode)
              · show ks.get ⟨j, hj1⟩ ∉ ((runUpdates dev [] (k :: ks) (r :: rs)).2).map Prod.fst
                rw [hsplit, List.map_append]
                intro hx
                have hgetmem : ks.get ⟨j, hj1⟩ ∈ ks := List.get_mem ks j hj1
                have hne : ks.get ⟨j, hj1⟩ ≠ k := fun h => hknotks (h ▸ hgetmem)
                rcases List.mem_append.mp hx with hx | hx
                · unfold updatePropertyValueFromDevice at hx
                  split at hx
                  · exact hne (by simpa using hx)
                  · simp at hx
                · exact ihj.2 hcode hx

theorem readablePropKeys_nodup (dev : MiotDevice)
    (h : (dev.properties.map (fun p => p.name)).Nodup) : dev.readablePropKeys.Nodup := by
  have hsub : dev.readableProps.Sublist dev.properties := List.filter_sublist _
  have hsubm : (dev.readableProps.map (fun p => p.name)).Sublist
      (dev.properties.map (fun p => p.name)) := hsub.map _
  exact h.sublist hsubm

theorem readablePropKeys_mem (dev : MiotDevice) (k : String)
    (h : k ∈ dev.readablePropKeys) : k ∈ dev.properties.map (fun p => p.name) := by
  rcases List.mem_map.mp h with ⟨p, hp, hname⟩
  exact List.mem_map.mpr ⟨p, List.mem_of_mem_filter hp, hname⟩

/-! Concrete sample data used by witnesses and counterexamples. -/

/-- Sample boolean read-write property (cached value false, no range). -/
def samplePower : MiotProperty :=
  ⟨"power", 2, 1, "bool", ["read", "write"], none, none, none, JSVal.vBool false⟩

/-- Sample integer read-write property with range [1, 3] (cached value 1). -/
def sampleFanLevel : MiotProperty :=
  ⟨"fan_level", 2, 2, "uint8", ["read", "write"], none, some [1, 3], none, JSVal.vNum 1⟩

/-- Sample read-only property (cached value 20). -/
def sampleTemperature : MiotProperty :=
  ⟨"temperature", 3, 1, "int32", ["read"], none, none, none, JSVal.vNum 20⟩

/-- Sample device bound to a transport handle. -/
def sampleConnectedDevice : MiotDevice :=
  ⟨some "123456", some "zhimi.humidifier.ca4", "Humidifier", some 1,
    [samplePower, sampleFanLevel, sampleTemperature], []⟩

/-- Sample device that was never bound to a transport. -/
def sampleUnboundDevice : MiotDevice :=
  ⟨some "123456", some "zhimi.humidifier.ca4", "Humidifier", none,
    [samplePower, sampleFanLevel, sampleTemperature], []⟩

/-! Claim theorems. -/

/-- C7: pollProperties is a thin guard around requestAllProperties: on a
disconnected device (in particular one never bound to a transport) it
returns a promise rejected with the connectivity error "Device not
connected" while issuing zero transport calls and leaving the device
unchanged; when connected it delegates to requestAllProperties and returns
its outcome. -/
theorem C7_pollProperties_guard (dev : MiotDevice) (resp : Except String (List SlotResp)) :
    (dev.isConnected = false →
      dev.pollProperties resp = ⟨dev, [], [], Outcome.rejected "Device not connected"⟩)
    ∧ (dev.isConnected = true →
      dev.pollProperties resp = dev.requestAllProperties resp) := by
  constructor <;> intro h <;> simp [pollProperties, h]

theorem C7_pollProperties_guard_witness :
    sampleUnboundDevice.isConnected = false
    ∧ sampleUnboundDevice.pollProperties (Except.ok [])
        = ⟨sampleUnboundDevice, [], [], Outcome.rejected "Device not connected"⟩
    ∧ sampleConnectedDevice.isConnected = true
    ∧ sampleConnectedDevice.pollProperties (Except.ok [])
        = sampleConnectedDevice.requestAllProperties (Except.ok []) :=
  ⟨rfl, (C7_pollProperties_guard sampleUnboundDevice (Except.ok [])).1 rfl,
    rfl, (C7_pollProperties_guard sampleConnectedDevice (Except.ok [])).2 rfl⟩

/-- C10: for a property name absent from the registry, getPropertyValue
returns undefined, getSafePropertyValue returns 0, and
getPropertyValueRange/getPropertyValueList return the empty list; all four
are pure lookups of the device state (the embedding returns values without
producing a new device, mirroring the read-only source accessors). -/
theorem C10_missing_property_lookups (dev : MiotDevice) (n : String)
    (h : dev.hasProperty n = false) :
    dev.getPropertyValue n = JSVal.undefined
    ∧ dev.getSafePropertyValue n = JSVal.vNum 0
    ∧ dev.getPropertyValueRange n = []
    ∧ dev.getPropertyValueList n = [] := by
  have hnone : dev.getProperty n = none := by
    rcases hcase : dev.getProperty n with _ | p
    · rfl
    · rw [hasProperty, hcase] at h
      simp at h
  refine ⟨?_, ?_, ?_, ?_⟩ <;>
    simp [getPropertyValue, getSafePropertyValue, getPropertyValueRange,
      getPropertyValueList, hnone, h]

theorem C10_missing_property_lookups_witness :
    sampleConnectedDevice.hasProperty "led" = false
    ∧ sampleConnectedDevice.getPropertyValue "led" = JSVal.undefined
    ∧ sampleConnectedDevice.getSafePropertyValue "led" = JSVal.vNum 0
    ∧ sampleConnectedDevice.getPropertyValueRange "led" = []
    ∧ sampleConnectedDevice.getPropertyValueList "led" = [] := by
  have h := C10_missing_property_lookups sampleConnectedDevice "led" (by decide)
  exact ⟨by decide, h.1, h.2.1, h.2.2.1, h.2.2.2⟩

/-- C8: addProperty with a missing name or a missing service/property id
(JavaScript-falsy: empty name, id 0 or absent) registers nothing — the
device is returned unchanged — so a property registered only through such a
call is never retrievable via hasProperty; the call is a logged silent
skip, not a fatal error. -/
theorem C8_addProperty_missing_ids (dev : MiotDevice) (propName : String)
    (siid piid : Nat) (format : String) (access : List String) ( unit : Option String)
    (valueRange : Option (List Int)) (valueList : Option (List ValueListEntry))
    (h : propName = "" ∨ siid = 0 ∨ piid = 0) :
    dev.addProperty propName siid piid format access unit valueRange valueList = dev
    ∧ (dev.hasProperty propName = false →
        (dev.addProperty propName siid piid format access unit valueRange
            valueList).hasProperty propName = false) := by
  have hdev : dev.addProperty propName siid piid format access unit valueRange valueList
      = dev := by
    unfold addProperty
    by_cases hn : propName = ""
    · rw [if_pos hn]
    · have hs : siid = 0 ∨ piid = 0 := by
        rcases h with h | h | h
        · exact absurd h hn
        · exact Or.inl h
        · exact Or.inr h
      rw [if_neg hn, if_pos hs]
  exact ⟨hdev, fun hh => by rw [hdev]; exact hh⟩

theorem C8_addProperty_missing_ids_witness :
    ((0:Nat) = 0 ∨ True)
    ∧ sampleUnboundDevice.hasProperty "mode" = false
    ∧ sampleUnboundDevice.addProperty "mode" 0 3 "uint8" ["read"] none none none
        = sampleUnboundDevice
    ∧ (sampleUnboundDevice.addProperty "mode" 0 3 "uint8" ["read"] none none
        none).hasProperty "mode" = false := by
  have h := C8_addProperty_missing_ids sampleUnboundDevice "mode" 0 3 "uint8" ["read"]
    none none none (Or.inr (Or.inl rfl))
  exact ⟨Or.inl rfl, by decide, h.1, h.2 (by decide)⟩

/-- C6 counterexample: on a device never bound to a transport,
requestAllProperties does NOT reject: the createErrorPromise helper attaches
a catch to its own rejection, so the returned promise resolves with
undefined.  The call still makes no transport call and changes no cached
value. -/
theorem C6_counterexample :
    sampleUnboundDevice.requestAllProperties (Except.ok [])
      = ⟨sampleUnboundDevice, [], [], Outcome.resolved PromiseValue.undefined⟩ := by
  rfl

/-- C6 (amended): for every disconnected device, requestAllProperties makes
no transport call and changes no cached value, but returns an
error-absorbed outcome — a promise that resolves with undefined after
internal logging — rather than a rejected one. -/
theorem C6_requestAllProperties_disconnected (dev : MiotDevice)
    (resp : Except String (List SlotResp)) (h : dev.isConnected = false) :
    dev.requestAllProperties resp
      = ⟨dev, [], [], Outcome.resolved PromiseValue.undefined⟩ := by
  simp [requestAllProperties, h, createErrorPromise]

theorem C6_requestAllProperties_disconnected_witness :
    sampleUnboundDevice.isConnected = false
    ∧ sampleUnboundDevice.requestAllProperties (Except.error "timeout")
        = ⟨sampleUnboundDevice, [], [], Outcome.resolved PromiseValue.undefined⟩ :=
  ⟨rfl, C6_requestAllProperties_disconnected sampleUnboundDevice
    (Except.error "timeout") rfl⟩

/-- C4: on a connected device, a single-property write whose transport call
succeeds updates the property's cached value to the written value — visible
through getPropertyValue before any poll — and emits exactly one
property-updated notification carrying that (updated) property; exactly one
transport call is issued and the promise resolves. -/
theorem C4_setProperty_success (dev : MiotDevice) (propName : String)
    (prop : MiotProperty) (v : JSVal)
    (hprop : dev.getProperty propName = some prop)
    (hconn : dev.isConnected = true) :
    ((dev.setProperty (some prop) v true).dev).getPropertyValue propName = v
    ∧ (dev.setProperty (some prop) v true).events = [prop.setValue v]
    ∧ (dev.setProperty (some prop) v true).calls
        = [⟨COMMAND_SET, [prop.getWriteProtocolObjForDid dev.deviceId v]⟩]
    ∧ (dev.setProperty (some prop) v true).outcome
        = Outcome.resolved PromiseValue.undefined := by
  have hname : prop.name = propName := by
    simpa using List.find?_some hprop
  have hres : dev.setProperty (some prop) v true
      = ⟨{ dev with properties := registrySetValue dev.properties prop.name v },
          [⟨COMMAND_SET, [prop.getWriteProtocolObjForDid dev.deviceId v]⟩],
          [prop.setValue v], Outcome.resolved PromiseValue.undefined⟩ := by
    simp [setProperty, hconn]
  have hpres : (dev.getProperty propName).isSome = true := by
    rw [hprop]; rfl
  refine ⟨?_, by rw [hres], by rw [hres], by rw [hres]⟩
  rw [hres]
  show getPropertyValue { dev with properties := registrySetValue dev.properties prop.name v }
    propName = v
  rw [hname]
  exact getPropertyValue_update_eq dev propName v hpres

theorem C4_setProperty_success_witness :
    sampleConnectedDevice.getProperty "power" = some samplePower
    ∧ sampleConnectedDevice.isConnected = true
    ∧ ((sampleConnectedDevice.setProperty (some samplePower) (JSVal.vBool true)
        true).dev).getPropertyValue "power" = JSVal.vBool true
    ∧ (sampleConnectedDevice.setProperty (some samplePower) (JSVal.vBool true)
        true).events = [samplePower.setValue (JSVal.vBool true)] := by
  have h := C4_setProperty_success sampleConnectedDevice "power" samplePower
    (JSVal.vBool true) (by decide) rfl
  exact ⟨by decide, rfl, h.1, h.2.1⟩

/-- C5: on a connected device, a single-property write whose transport call
fails leaves the device (in particular every cached value) unchanged, emits
no notification, and returns a promise that resolves (the catch handler
absorbs the failure) — it still issues the one attempted transport call. -/
theorem C5_setProperty_failure (dev : MiotDevice) (prop : MiotProperty) (v : JSVal)
    (hconn : dev.isConnected = true) :
    dev.setProperty (some prop) v false
      = ⟨dev, [⟨COMMAND_SET, [prop.getWriteProtocolObjForDid dev.deviceId v]⟩], [],
          Outcome.resolved PromiseValue.undefined⟩ := by
  simp [setProperty, hconn]

theorem C5_setProperty_failure_witness :
    sampleConnectedDevice.isConnected = true
    ∧ sampleConnectedDevice.setProperty (some samplePower) (JSVal.vBool true) false
      = ⟨sampleConnectedDevice,
          [⟨COMMAND_SET, [samplePower.getWriteProtocolObjForDid (some "123456")
            (JSVal.vBool true)]⟩], [],
          Outcome.resolved PromiseValue.undefined⟩ :=
  ⟨rfl, C5_setProperty_failure sampleConnectedDevice samplePower (JSVal.vBool true) rfl⟩

/-- C9: the claim (and the source comment "run setup only for the first
time") says setup is skipped on every attach after the first; but
updateMiioDevice guards setup only on the absence of a transport handle, so
an attach that follows an explicit detach (disconnectAndDestroyMiioDevice
nulls the handle) runs the one-time setup again.  Evaluated at the failing
input attach–detach–attach: setup runs on both attaches (while an attach
replacing a still-bound handle does skip it). -/
theorem C9_setup_reruns_after_detach :
    (sampleUnboundDevice.updateMiioDevice 1).2 = true
    ∧ (((sampleUnboundDevice.updateMiioDevice 1).1.disconnectAndDestroyMiioDevice).updateMiioDevice 2).2 = true
    ∧ ((sampleUnboundDevice.updateMiioDevice 1).1.updateMiioDevice 2).2 = false :=
  ⟨rfl, rfl, rfl⟩

theorem setProperty_calls_value (dev : MiotDevice) (prop : MiotProperty) (v : JSVal)
    (ok : Bool) :
    ∀ c ∈ (dev.setProperty (some prop) v ok).calls, ∀ q ∈ c.params,
      q.value = some v := by
  intro c hc q hq
  rcases hconn : dev.isConnected with _ | _
  · simp [setProperty, hconn, setProperty.createErrorPromiseResult] at hc
  · rcases hok : ok with _ | _ <;>
      simp [setProperty, hconn, hok] at hc <;>
      subst hc <;> simp at hq <;> subst hq <;> rfl

theorem setPropertyValue_eq_of_found (dev : MiotDevice) (propName : String)
    (prop : MiotProperty) (v : JSVal) (ok : Bool)
    (hprop : dev.getProperty propName = some prop) :
    dev.setPropertyValue propName v ok
      = if prop.getValue ≠ clampToRange prop.getValueRange v then
          dev.setProperty (some prop) (clampToRange prop.getValueRange v) ok
        else ⟨dev, [], [], Outcome.resolved PromiseValue.undefined⟩ := by
  unfold setPropertyValue
  rw [hprop]

theorem setPropertyValue_eq_of_missing (dev : MiotDevice) (propName : String)
    (v : JSVal) (ok : Bool) (hprop : dev.getProperty propName = none) :
    dev.setPropertyValue propName v ok
      = ⟨dev, [], [], Outcome.resolved PromiseValue.undefined⟩ := by
  unfold setPropertyValue
  rw [hprop]

theorem clampToRange_high (propRange : List Int) (v : JSVal) (n : Int)
    (hnum : v.toNum = some n) (hlen : 1 < propRange.length)
    (hhigh : propRange.getD 1 0 < n) :
    clampToRange (some propRange) v = JSVal.vNum (propRange.getD 1 0) := by
  have hgt : jsGtInt v (propRange.getD 1 0) = true := by
    simp only [jsGtInt, hnum]
    exact decide_eq_true hhigh
  simp only [clampToRange]
  rw [if_pos (show propRange.length > 1 from hlen), if_pos hgt]

theorem clampToRange_low (propRange : List Int) (v : JSVal) (n : Int)
    (hnum : v.toNum = some n) (hlen : 1 < propRange.length)
    (hminmax : propRange.getD 0 0 ≤ propRange.getD 1 0)
    (hlow : n < propRange.getD 0 0) :
    clampToRange (some propRange) v = JSVal.vNum (propRange.getD 0 0) := by
  have hngt : ¬(propRange.getD 1 0 < n) := by omega
  have hgt : jsGtInt v (propRange.getD 1 0) = false := by
    simp only [jsGtInt, hnum]
    exact decide_eq_false hngt
  have hlt : jsLtInt v (propRange.getD 0 0) = true := by
    simp only [jsLtInt, hnum]
    exact decide_eq_true hlow
  simp only [clampToRange]
  rw [if_pos (show propRange.length > 1 from hlen),
    if_neg (by simp only [hgt, Bool.false_eq_true, not_false_eq_true]), if_pos hlt]

theorem setPropertyValue_calls_value (dev : MiotDevice) (propName : String)
    (prop : MiotProperty) (v : JSVal) (ok : Bool)
    (hprop : dev.getProperty propName = some prop) :
    ∀ c ∈ (dev.setPropertyValue propName v ok).calls, ∀ q ∈ c.params,
      q.value = some (clampToRange prop.getValueRange v) := by
  intro c hc q hq
  rw [setPropertyValue_eq_of_found dev propName prop v ok hprop] at hc
  by_cases hne : prop.getValue ≠ clampToRange prop.getValueRange v
  · rw [if_pos hne] at hc
    exact setProperty_calls_value dev prop (clampToRange prop.getValueRange v) ok c hc q hq
  · rw [if_neg hne] at hc
    simp at hc

/-- C2: when a registered property declares a numeric range with at least
two entries (min ≤ max), setPropertyValue with a numeric value above max
proceeds with exactly max, and with one below min with exactly min: the
clamp happens before the write path, and every write request the call
issues carries the clamped bound — the raw out-of-range value is never
sent. -/
theorem C2_setPropertyValue_clamps (dev : MiotDevice) (propName : String)
    (prop : MiotProperty) (v : JSVal) (ok : Bool) (propRange : List Int) (n : Int)
    (hprop : dev.getProperty propName = some prop)
    (hrange : prop.getValueRange = some propRange)
    (hlen : 1 < propRange.length)
    (hminmax : propRange.getD 0 0 ≤ propRange.getD 1 0)
    (hnum : v.toNum = some n) :
    (propRange.getD 1 0 < n →
      clampToRange prop.getValueRange v = JSVal.vNum (propRange.getD 1 0)
      ∧ ∀ c ∈ (dev.setPropertyValue propName v ok).calls, ∀ q ∈ c.params,
          q.value = some (JSVal.vNum (propRange.getD 1 0)))
    ∧ (n < propRange.getD 0 0 →
      clampToRange prop.getValueRange v = JSVal.vNum (propRange.getD 0 0)
      ∧ ∀ c ∈ (dev.setPropertyValue propName v ok).calls, ∀ q ∈ c.params,
          q.value = some (JSVal.vNum (propRange.getD 0 0))) := by
  constructor
  · intro hhigh
    have hclamp : clampToRange prop.getValueRange v = JSVal.vNum (propRange.getD 1 0) := by
      rw [hrange]
      exact clampToRange_high propRange v n hnum hlen hhigh
    refine ⟨hclamp, ?_⟩
    intro c hc q hq
    have hval := setPropertyValue_calls_value dev propName prop v ok hprop c hc q hq
    rw [hclamp] at hval
    exact hval
  · intro hlow
    have hclamp : clampToRange prop.getValueRange v = JSVal.vNum (propRange.getD 0 0) := by
      rw [hrange]
      exact clampToRange_low propRange v n hnum hlen hminmax hlow
    refine ⟨hclamp, ?_⟩
    intro c hc q hq
    have hval := setPropertyValue_calls_value dev propName prop v ok hprop c hc q hq
    rw [hclamp] at hval
    exact hval

theorem C2_setPropertyValue_clamps_witness :
    ((1:Int) ≤ 3 ∧ (3:Int) < 5)
    ∧ clampToRange sampleFanLevel.getValueRange (JSVal.vNum 5) = JSVal.vNum 3 := by
  have h := C2_setPropertyValue_clamps sampleConnectedDevice "fan_level" sampleFanLevel
    (JSVal.vNum 5) true [1, 3] 5 (by decide) rfl (by decide) (by decide) rfl
  exact ⟨⟨by decide, by decide⟩, (h.1 (by decide)).1⟩

theorem setProperty_connected_true (dev : MiotDevice) (prop : MiotProperty) (cv : JSVal)
    (hconn : dev.isConnected = true) :
    dev.setProperty (some prop) cv true
      = ⟨{ dev with properties := registrySetValue dev.properties prop.name cv },
          [⟨COMMAND_SET, [prop.getWriteProtocolObjForDid dev.deviceId cv]⟩],
          [prop.setValue cv], Outcome.resolved PromiseValue.undefined⟩ := by
  simp [setProperty, hconn]

/-- C3 counterexample: with a transport that fails both times, two
successive setPropertyValue calls with the same (not yet cached) value each
issue an underlying write — the optimistic cache update never happens
because the writes fail, so the idempotence guard cannot suppress the
second write: two write calls are issued, refuting "at most one". -/
theorem C3_counterexample :
    ((sampleConnectedDevice.setPropertyValue "power" (JSVal.vBool true)
        false).dev.setPropertyValue "power" (JSVal.vBool true) false).calls.length
      + (sampleConnectedDevice.setPropertyValue "power" (JSVal.vBool true)
          false).calls.length = 2 := by
  decide

/-- C3 (amended): if the (possibly clamped) value equals the property's
cached value, the call is skipped entirely — no write, no state change; and
two successive setPropertyValue calls with the same value issue at most one
underlying write provided the first call's transport write (if one is
issued) succeeds — on transport failure the cache is not updated, so the
second call can issue another write. -/
theorem C3_setPropertyValue_idempotent (dev : MiotDevice) (propName : String) (v : JSVal)
    (ok2 : Bool) :
    (∀ prop, dev.getProperty propName = some prop →
        clampToRange prop.getValueRange v = prop.getValue →
        dev.setPropertyValue propName v ok2
          = ⟨dev, [], [], Outcome.resolved PromiseValue.undefined⟩)
    ∧ ((dev.setPropertyValue propName v true).dev.setPropertyValue propName v
          ok2).calls.length
        + (dev.setPropertyValue propName v true).calls.length ≤ 1 := by
  constructor
  · intro prop hprop hclamp
    rw [setPropertyValue_eq_of_found dev propName prop v ok2 hprop]
    rw [if_neg (by rw [hclamp]; simp)]
  · rcases hprop : dev.getProperty propName with _ | prop
    · rw [setPropertyValue_eq_of_missing dev propName v true hprop]
      show ((dev.setPropertyValue propName v ok2).calls.length + ([] : List ProtocolCall).length ≤ 1)
      rw [setPropertyValue_eq_of_missing dev propName v ok2 hprop]
      simp
    · by_cases heq : prop.getValue = clampToRange prop.getValueRange v
      · have h1 : dev.setPropertyValue propName v true
            = ⟨dev, [], [], Outcome.resolved PromiseValue.undefined⟩ := by
          rw [setPropertyValue_eq_of_found dev propName prop v true hprop]
          rw [if_neg (by simp [heq])]
        have h2 : dev.setPropertyValue propName v ok2
            = ⟨dev, [], [], Outcome.resolved PromiseValue.undefined⟩ := by
          rw [setPropertyValue_eq_of_found dev propName prop v ok2 hprop]
          rw [if_neg (by simp [heq])]
        rw [h1]
        show (dev.setPropertyValue propName v ok2).calls.length
          + ([] : List ProtocolCall).length ≤ 1
        rw [h2]
        simp
      · have hne : prop.getValue ≠ clampToRange prop.getValueRange v := heq
        have h1 : dev.setPropertyValue propName v true
            = dev.setProperty (some prop) (clampToRange prop.getValueRange v) true := by
          rw [setPropertyValue_eq_of_found dev propName prop v true hprop, if_pos hne]
        rcases hconn : dev.isConnected with _ | _
        · have hsp1 : dev.setProperty (some prop) (clampToRange prop.getValueRange v) true
              = ⟨dev, [], [], Outcome.resolved PromiseValue.undefined⟩ := by
            simp [setProperty, hconn, setProperty.createErrorPromiseResult, createErrorPromise]
          have hsp2 : dev.setProperty (some prop) (clampToRange prop.getValueRange v) ok2
              = ⟨dev, [], [], Outcome.resolved PromiseValue.undefined⟩ := by
            rcases ok2 <;>
              simp [setProperty, hconn, setProperty.createErrorPromiseResult, createErrorPromise]
          have h2 : dev.setPropertyValue propName v ok2
              = ⟨dev, [], [], Outcome.resolved PromiseValue.undefined⟩ := by
            rw [setPropertyValue_eq_of_found dev propName prop v ok2 hprop, if_pos hne, hsp2]
          rw [h1, hsp1]
          show (dev.setPropertyValue propName v ok2).calls.length
            + ([] : List ProtocolCall).length ≤ 1
          rw [h2]
          simp
        · have hsp1 := setProperty_connected_true dev prop
            (clampToRange prop.getValueRange v) hconn
          have hname : prop.name = propName := by
            simpa using List.find?_some hprop
          set dev2 : MiotDevice := { dev with properties := registrySetValue dev.properties prop.name (clampToRange prop.getValueRange v) } with hdev2
          have hprop2 : dev2.getProperty propName
              = some (prop.setValue (clampToRange prop.getValueRange v)) := by
            show (registrySetValue dev.properties prop.name (clampToRange prop.getValueRange v)).find? (fun p => p.name == propName) = _
            rw [hname, find?_registrySetValue_eq]
            rw [show dev.properties.find? (fun p => p.name == propName) = some prop from hprop]
            rfl
          have h2 : dev2.setPropertyValue propName v ok2
              = ⟨dev2, [], [], Outcome.resolved PromiseValue.undefined⟩ := by
            rw [setPropertyValue_eq_of_found dev2 propName
              (prop.setValue (clampToRange prop.getValueRange v)) v ok2 hprop2]
            rw [if_neg (by simp [setValue_getValue, setValue_getValueRange])]
          rw [h1, hsp1]
          simp [h2]

theorem C3_setPropertyValue_idempotent_witness :
    sampleConnectedDevice.getProperty "fan_level" = some sampleFanLevel
    ∧ clampToRange sampleFanLevel.getValueRange (JSVal.vNum 1) = sampleFanLevel.getValue
    ∧ sampleConnectedDevice.setPropertyValue "fan_level" (JSVal.vNum 1) true
        = ⟨sampleConnectedDevice, [], [], Outcome.resolved PromiseValue.undefined⟩
    ∧ ((sampleConnectedDevice.setPropertyValue "power" (JSVal.vBool true)
          true).dev.setPropertyValue "power" (JSVal.vBool true) true).calls.length
        + (sampleConnectedDevice.setPropertyValue "power" (JSVal.vBool true)
            true).calls.length ≤ 1 := by
  have hskip := (C3_setPropertyValue_idempotent sampleConnectedDevice "fan_level"
    (JSVal.vNum 1) true).1 sampleFanLevel (by decide) (by decide)
  have htwice := (C3_setPropertyValue_idempotent sampleConnectedDevice "power"
    (JSVal.vBool true) true).2
  exact ⟨by decide, by decide, hskip, htwice⟩

/-- C1 counterexample: a response slot with code 0 whose value is undefined
still updates the property's cache (to undefined) and records the name in
the result object — refuting the claim that an update happens exactly when
the slot's code is 0 AND its value is defined (the value-undefined guard in
the source sits in an unreachable else-if branch and only logs). -/
theorem C1_counterexample :
    sampleConnectedDevice.getPropertyValue "power" = JSVal.vBool false
    ∧ (sampleConnectedDevice.requestAllProperties (Except.ok [⟨0, JSVal.undefined⟩, ⟨0, JSVal.undefined⟩, ⟨0, JSVal.undefined⟩])).dev.getPropertyValue "power" = JSVal.undefined
    ∧ (sampleConnectedDevice.requestAllProperties (Except.ok [⟨0, JSVal.undefined⟩, ⟨0, JSVal.undefined⟩, ⟨0, JSVal.undefined⟩])).outcome
        = Outcome.resolved (PromiseValue.obj [("power", JSVal.undefined), ("fan_level", JSVal.undefined), ("temperature", JSVal.undefined)]) := by
  refine ⟨rfl, ?_, ?_⟩ <;> decide

/-- C1 (amended): on a connected device with uniquely named properties and a
response array of the same length as the batched request over the readable
properties (in registry iteration order), the call does not abort: it
resolves with a result object such that, for every slot index i, a slot
with code 0 writes the slot's value — defined or undefined — into property
i's cache and records it in the result object, while a slot with nonzero
code leaves property i's cached value unchanged and excludes its name from
the result object. -/
theorem C1_requestAllProperties_slots (dev : MiotDevice) (result : List SlotResp)
    (hconn : dev.isConnected = true)
    (hnodup : (dev.properties.map (fun p => p.name)).Nodup)
    (hlen : dev.readablePropKeys.length = result.length) :
    ∃ o : List (String × JSVal),
      (dev.requestAllProperties (Except.ok result)).outcome
          = Outcome.resolved (PromiseValue.obj o)
      ∧ ∀ i (hik : i < dev.readablePropKeys.length) (hir : i < result.length),
          ((result.get ⟨i, hir⟩).code = 0 →
            (dev.requestAllProperties (Except.ok result)).dev.getPropertyValue
                (dev.readablePropKeys.get ⟨i, hik⟩) = (result.get ⟨i, hir⟩).value
            ∧ (dev.readablePropKeys.get ⟨i, hik⟩, (result.get ⟨i, hir⟩).value) ∈ o)
          ∧ ((result.get ⟨i, hir⟩).code ≠ 0 →
            (dev.requestAllProperties (Except.ok result)).dev.getPropertyValue
                (dev.readablePropKeys.get ⟨i, hik⟩)
              = dev.getPropertyValue (dev.readablePropKeys.get ⟨i, hik⟩)
            ∧ dev.readablePropKeys.get ⟨i, hik⟩ ∉ o.map Prod.fst) := by
  have hreq : dev.requestAllProperties (Except.ok result)
      = ⟨(runUpdates dev [] dev.readablePropKeys result).1,
          [⟨COMMAND_GET, dev.readableProps.map
            (fun p => p.getReadProtocolObjForDid dev.deviceId)⟩],
          [], Outcome.resolved
            (PromiseValue.obj (runUpdates dev [] dev.readablePropKeys result).2)⟩ := by
    simp [requestAllProperties, hconn, readablePropKeys]
  refine ⟨(runUpdates dev [] dev.readablePropKeys result).2, by rw [hreq], ?_⟩
  intro i hik hir
  have hnd : dev.readablePropKeys.Nodup := readablePropKeys_nodup dev hnodup
  have hget := runUpdates_get_spec result dev.readablePropKeys dev hlen hnd
    (fun k hk => readablePropKeys_mem dev k hk) i hik hir
  have hobj := runUpdates_obj_spec result dev.readablePropKeys dev hlen hnd i hik hir
  rw [hreq]
  exact ⟨fun hc => ⟨hget.1 hc, hobj.1 hc⟩, fun hc => ⟨hget.2 hc, hobj.2 hc⟩⟩

theorem C1_requestAllProperties_slots_witness :
    sampleConnectedDevice.isConnected = true
    ∧ (sampleConnectedDevice.requestAllProperties (Except.ok [⟨0, JSVal.vBool true⟩, ⟨-4, JSVal.vNum 9⟩, ⟨0, JSVal.vNum 21⟩])).dev.getPropertyValue "power" = JSVal.vBool true
    ∧ (sampleConnectedDevice.requestAllProperties (Except.ok [⟨0, JSVal.vBool true⟩, ⟨-4, JSVal.vNum 9⟩, ⟨0, JSVal.vNum 21⟩])).dev.getPropertyValue "fan_level" = JSVal.vNum 1 := by
  have h := C1_requestAllProperties_slots sampleConnectedDevice
    [⟨0, JSVal.vBool true⟩, ⟨-4, JSVal.vNum 9⟩, ⟨0, JSVal.vNum 21⟩] rfl (by decide) (by decide)
  rcases h with ⟨o, ho, hslots⟩
  have h0 := (hslots 0 (by decide) (by decide)).1 rfl
  have h1 := (hslots 1 (by decide) (by decide)).2 (by decide)
  refine ⟨rfl, h0.1, ?_⟩
  exact h1.1.trans (by decide)

end MiotDevice

end HomebridgeMiot
